import Mathlib

set_option maxHeartbeats 1000000

/-!
Verification of the poolCompose thread pools.

The repository has two pool variants:
* `SimpleThreadPool` (src/thread_pool/simple_threadpool/threadPool.h): a fixed
  roster of worker threads, a FIFO task queue, a drain-before-exit worker loop
  (`while (true) { wait; if (is_stop_ && tasks_.empty()) break; pop; run }`),
  and an idempotent `shutdown` with an early-return double-call guard.
* `DynamicThreadPool` (src/thread_pool/threadpool_resize/main.cc): core workers
  started at construction, detached overflow (temp) workers started by `Submit`
  when `active_threads_ < max_threads_`, and a worker loop whose outer condition
  is `while (!is_stop_)`.

We embed both at two levels of detail:
1. Sequential (big-step) models `DPool`/`SPool` of the controller operations
   (constructor, `Submit`, `shutdown`, destructor), translated line by line.
2. Small-step interleaving transition systems `SimStep`/`DynStep` over explicit
   program counters of the worker loops, the temp-worker loop and in-flight
   `Submit` calls, used for drain/liveness/counting properties and races.
-/

namespace PoolModel

/-- Errors surfaced synchronously by pool operations: `std::invalid_argument`
from the `DynamicThreadPool` constructor and `std::runtime_error("pool
stopped")` from `Submit`. -/
inductive PoolError where
  | invalidConfiguration
  | poolStopped
  deriving DecidableEq, Repr

/-- A core worker thread handle as stored in the `threads_` vector; `joinable`
mirrors `std::thread::joinable()` (true until joined). -/
structure CoreThread where
  joinable : Bool
  deriving DecidableEq, Repr

/-- An overflow (temp) thread record, as produced by
`DynamicThreadPool::start_temp_thread`: the thread object is detached at
creation (`t.detach()`), and nothing in the class ever joins it. -/
structure TempThread where
  detached : Bool
  joined : Bool
  deriving DecidableEq, Repr

/-- An error raised by a task body; `std::packaged_task` captures it and stores
it in the shared state read through the task's `std::future`. -/
inductive TaskErr where
  | taskFailure (code : Nat)
  deriving DecidableEq, Repr

/-- The outcome of running a task body: a returned value or a raised error.
`std::packaged_task::operator()` stores exactly this in the result channel. -/
abbrev Body := Except TaskErr Nat

instance {ε α : Type} [DecidableEq ε] [DecidableEq α] : DecidableEq (Except ε α) :=
  fun a b =>
  match a, b with
  | Except.error e, Except.error f =>
      if h : e = f then isTrue (by rw [h])
      else isFalse (by intro hc; cases hc; exact h rfl)
  | Except.ok x, Except.ok y =>
      if h : x = y then isTrue (by rw [h])
      else isFalse (by intro hc; cases hc; exact h rfl)
  | Except.error _, Except.ok _ => isFalse (by intro hc; cases hc)
  | Except.ok _, Except.error _ => isFalse (by intro hc; cases hc)

end PoolModel

namespace DynamicThreadPool
open PoolModel

/-- Sequential (controller-side) state of a `DynamicThreadPool`
(src/thread_pool/threadpool_resize/main.cc, members at lines 124-131).
`startedTemps` is a ghost ledger of every temp thread `start_temp_thread` ever
spawned; `notifiedAll` records that `cv_task_.notify_all()` ran. The temp
threads' own effects (their `fetch_add`/`fetch_sub` on `active_threads_`) are
modelled in the small-step system `DynStep` below, not here: this model runs
only the controller's code. -/
structure DPool where
  core_threads : Nat
  max_threads : Nat
  threads : List CoreThread
  tasks : List Nat
  is_stop : Bool
  active_threads : Nat
  startedTemps : List TempThread
  notifiedAll : Bool
  deriving DecidableEq, Repr

/-- Constructor `DynamicThreadPool(core_threads, max_threads)` (lines 16-28):
throws `std::invalid_argument` iff `core_threads > max_threads`; otherwise
initializes `active_threads_(core_threads)` and starts `core_threads` core
workers before returning. -/
def construct (core max : Nat) : Except PoolError DPool :=
  if core > max then
    Except.error PoolError.invalidConfiguration
  else
    Except.ok
      { core_threads := core
        max_threads := max
        threads := List.replicate core { joinable := true }
        tasks := []
        is_stop := false
        active_threads := core
        startedTemps := []
        notifiedAll := false }

/-- `GetActiveThreadCount` (line 63): `active_threads_.load()`. -/
def GetActiveThreadCount (p : DPool) : Nat := p.active_threads

/-- `Submit` (lines 41-60): under the lock, throw `"pool stopped"` if
`is_stop_`, else enqueue; after releasing the lock, if
`active_threads_.load() < max_threads_` spawn one detached temp thread;
`notify_one`; return the future. The returned handle is the task id. On the
throwing path nothing after the throw runs, so the state is unchanged. -/
def Submit (p : DPool) (t : Nat) : DPool × Except PoolError Nat :=
  if p.is_stop then
    (p, Except.error PoolError.poolStopped)
  else
    let p1 := { p with tasks := p.tasks ++ [t] }
    let p2 :=
      if p1.active_threads < p1.max_threads then
        { p1 with startedTemps := p1.startedTemps ++ [{ detached := true, joined := false }] }
      else p1
    (p2, Except.ok t)

/-- The loop body of `shutdown` at line 120: `if (t.joinable()) t.join();`;
joining makes the handle non-joinable. -/
def joinThread (th : CoreThread) : CoreThread :=
  if th.joinable then { th with joinable := false } else th

/-- `shutdown` (lines 112-122): set `is_stop_ = true` under the lock,
`notify_all`, then for each core thread `if (t.joinable()) t.join()`.
The second component is the list of threads actually joined by this call. -/
def shutdownRun (p : DPool) : DPool × List CoreThread :=
  let p1 := { p with is_stop := true, notifiedAll := true }
  ({ p1 with threads := p1.threads.map joinThread },
   p1.threads.filter fun th => th.joinable)

/-- `shutdown`, keeping only the resulting state. -/
def shutdown (p : DPool) : DPool := (shutdownRun p).1

/-- Destructor `~DynamicThreadPool() { shutdown(); }` (line 37). -/
def destruct (p : DPool) : DPool := shutdown p

end DynamicThreadPool

namespace SimpleThreadPool
open PoolModel

/-- Sequential state of a `SimpleThreadPool`
(src/thread_pool/simple_threadpool/threadPool.h, members at lines 108-113). -/
structure SPool where
  threads : List CoreThread
  tasks : List Nat
  is_stop : Bool
  notifiedAll : Bool
  deriving DecidableEq, Repr

/-- Constructor `SimpleThreadPool(core_size)` (lines 13-19): starts
`core_size` worker threads; no validation. -/
def construct (core_size : Nat) : SPool :=
  { threads := List.replicate core_size { joinable := true }
    tasks := []
    is_stop := false
    notifiedAll := false }

/-- `Submit` (lines 28-50): under the lock, throw
`"threadpool has stopped, cannot submit task"` if `is_stop_`, else enqueue;
`notify_one`; return the future (modelled as the task id). -/
def Submit (p : SPool) (t : Nat) : SPool × Except PoolError Nat :=
  if p.is_stop then
    (p, Except.error PoolError.poolStopped)
  else
    ({ p with tasks := p.tasks ++ [t] }, Except.ok t)

/-- `shutdown` (lines 83-106): `if (is_stop_) return;` then set
`is_stop_ = true`, `notify_all`, join every joinable thread, and
`threads_.clear()`. The second component is the list of threads joined by
this call. -/
def shutdownRun (p : SPool) : SPool × List CoreThread :=
  if p.is_stop then
    (p, [])
  else
    ({ p with is_stop := true, notifiedAll := true, threads := [] },
     p.threads.filter fun th => th.joinable)

/-- `shutdown`, keeping only the resulting state. -/
def shutdown (p : SPool) : SPool := (shutdownRun p).1

/-- Destructor `~SimpleThreadPool() { shutdown(); }` (line 26). -/
def destruct (p : SPool) : SPool := shutdown p

/-- Program counter of a `SimpleThreadPool` worker running `work()`
(lines 54-80). `waiting` is the blocked `cv_.wait`; after `task()` the loop
returns to the wait. A worker that takes the `break` at line 64 is `exited`. -/
inductive SWpc where
  | waiting
  | running (tid : Nat) (body : Body)
  | exited
  deriving DecidableEq, Repr

/-- Interleaved state of a `SimpleThreadPool` together with in-flight
submissions. `results` is the ledger of result channels resolved so far (the
`packaged_task` stores the body's value-or-error there); `submitted` is the
ghost ledger of successfully enqueued tasks. -/
structure SimState where
  workers : List SWpc
  tasks : List (Nat × Body)
  stopped : Bool
  results : List (Nat × Body)
  submitted : List (Nat × Body)
  deriving DecidableEq, Repr

/-- The tasks currently being executed by workers. -/
def runningOf (ws : List SWpc) : List (Nat × Body) :=
  ws.filterMap fun w =>
    match w with
    | SWpc.running t b => some (t, b)
    | _ => none

/-- The contribution of a single worker state to `runningOf`. -/
def pcTasks : SWpc → List (Nat × Body)
  | SWpc.running t b => [(t, b)]
  | _ => []

/-- One atomic step of the `SimpleThreadPool` system. Constructors mirror the
source: `submit` is the locked region of `Submit` (lines 37-45) on the
non-throwing path; `claim` is a woken worker passing the wait predicate with a
non-empty queue, not taking the `break` (lines 60-69); `finish` is `task()`
returning control to the loop, with `packaged_task` having stored the body's
outcome (lines 72-78); `exitw` is the `break` at line 64, whose guard is
`is_stop_ && tasks_.empty()`; `setStop` is shutdown's first phase
(lines 89-92). A waiting worker with an empty queue and `is_stop_` false has
no step: the condition-variable predicate is false, so it stays blocked. -/
inductive SimStep : SimState → SimState → Prop where
  | submit (s : SimState) (t : Nat × Body) (h : s.stopped = false) :
      SimStep s { s with tasks := s.tasks ++ [t], submitted := s.submitted ++ [t] }
  | claim (s : SimState) (i : Nat) (t : Nat × Body) (rest : List (Nat × Body))
      (hw : s.workers[i]? = some SWpc.waiting) (hq : s.tasks = t :: rest) :
      SimStep s { s with workers := s.workers.set i (SWpc.running t.1 t.2), tasks := rest }
  | finish (s : SimState) (i : Nat) (tid : Nat) (b : Body)
      (hw : s.workers[i]? = some (SWpc.running tid b)) :
      SimStep s { s with workers := s.workers.set i SWpc.waiting,
                         results := s.results ++ [(tid, b)] }
  | exitw (s : SimState) (i : Nat)
      (hw : s.workers[i]? = some SWpc.waiting) (hs : s.stopped = true)
      (hq : s.tasks = []) :
      SimStep s { s with workers := s.workers.set i SWpc.exited }
  | setStop (s : SimState) :
      SimStep s { s with stopped := true }

/-- Reflexive-transitive closure of `SimStep`. -/
def SimReach : SimState → SimState → Prop := Relation.ReflTransGen SimStep

/-- The pool right after `SimpleThreadPool(n)` returns: `n` workers blocked in
`work()`, empty queue, `is_stop_ = false`. -/
def simInit (n : Nat) : SimState :=
  { workers := List.replicate n SWpc.waiting
    tasks := []
    stopped := false
    results := []
    submitted := [] }

/-- The inductive invariant of the `SimpleThreadPool` system: the enqueue
ledger is accounted for by resolved results, tasks being executed, and the
queue; no worker has exited unless the pool is stopping; the roster is
non-empty; and a non-empty queue implies a non-exited worker. -/
def SimInv (s : SimState) : Prop :=
  (s.submitted : Multiset (Nat × Body)) =
      (s.results : Multiset (Nat × Body)) + (runningOf s.workers : Multiset (Nat × Body)) +
        (s.tasks : Multiset (Nat × Body))
  ∧ (s.stopped = false → ∀ w ∈ s.workers, w ≠ SWpc.exited)
  ∧ s.workers ≠ []
  ∧ (s.tasks ≠ [] → ∃ w ∈ s.workers, w ≠ SWpc.exited)

/-- A live sequential pool with two workers, as built by `construct 2`. -/
def simPoolTwo : SPool :=
  { threads := [{ joinable := true }, { joinable := true }]
    tasks := []
    is_stop := false
    notifiedAll := false }

/-- A stopped sequential pool, as left behind by `shutdown`. -/
def simPoolStopped : SPool :=
  { threads := []
    tasks := []
    is_stop := true
    notifiedAll := true }

/-- Final state of a concrete run of the one-worker system: stop requested,
the worker exited after observing an empty queue. -/
def simFinalDrained : SimState :=
  { workers := [SWpc.exited]
    tasks := []
    stopped := true
    results := []
    submitted := [] }

/-- A state with one worker executing a task whose body raises
`taskFailure 1`. -/
def simRunFail : SimState :=
  { workers := [SWpc.running 3 (Except.error (TaskErr.taskFailure 1))]
    tasks := []
    stopped := false
    results := []
    submitted := [(3, Except.error (TaskErr.taskFailure 1))] }

end SimpleThreadPool

namespace DynamicThreadPool
open PoolModel

/-- Program counter of a `DynamicThreadPool` core worker running
`core_worker_loop` (lines 67-80). `loopTop` is the `while (!is_stop_)` test;
`waiting` is the blocked `cv_task_.wait`. -/
inductive CPc where
  | loopTop
  | waiting
  | running (t : Nat)
  | exited
  deriving DecidableEq, Repr

/-- Program counter of a temp worker running `temp_worker_loop`
(lines 83-103). `start` is before the initial `active_threads_.fetch_add(1)`;
`loopTop` is the `while (!is_stop_)` test; `dec` is after the loop, before
`active_threads_.fetch_sub(1)`. -/
inductive TPc where
  | start
  | loopTop
  | waiting
  | running (t : Nat)
  | dec
  | exited
  deriving DecidableEq, Repr

/-- Program counter of one in-flight `Submit(t)` call (lines 41-60):
`pending` is before the locked region; `enqueued` is after releasing the lock
(task pushed) and before the growth check at line 54; `done` is after the
growth check and `notify_one`. -/
inductive SubPc where
  | pending (t : Nat)
  | enqueued
  | done
  deriving DecidableEq, Repr

/-- Interleaved state of a `DynamicThreadPool` with its core workers, temp
workers and in-flight submitter threads. `active` is `active_threads_`;
`executed` is the ghost ledger of tasks whose `task()` call completed. -/
structure DynState where
  core_threads : Nat
  max_threads : Nat
  cores : List CPc
  temps : List TPc
  subs : List SubPc
  tasks : List Nat
  stopped : Bool
  active : Nat
  executed : List Nat
  deriving DecidableEq, Repr

/-- One atomic step of the `DynamicThreadPool` system. Core-worker steps
mirror `core_worker_loop`: the outer `while (!is_stop_)` test
(`coreLoopTopExit`/`coreLoopTopWait`), the woken wait claiming the queue head
(`coreClaim`), the `break` at line 73 guarded by `is_stop_ && tasks_.empty()`
(`coreWakeExit`), and `task()` completing (`coreFinish`). Temp-worker steps
mirror `temp_worker_loop`: the initial `fetch_add` (`tempInc`), the outer
test (`tempLoopTopDec`/`tempLoopTopWait`), the timed wait returning false,
which requires the predicate `!tasks_.empty() || is_stop_` to be false at the
timeout (`tempTimeout`), the `break` at line 95 (`tempWakeDec`), claiming and
finishing a task, and the final `fetch_sub` (`tempDec`). Submitter steps
mirror `Submit`: the locked region enqueueing when not stopped
(`subEnqueue`), the throw when stopped (`subRejected`), and the unlocked
growth check at lines 54-56 spawning one detached temp thread exactly when
`active_threads_ < max_threads_` (`subGrowth`). `shutdownSet` is
`shutdown`'s first phase setting `is_stop_` (lines 113-116). -/
inductive DynStep : DynState → DynState → Prop where
  | coreLoopTopExit (s : DynState) (i : Nat)
      (hw : s.cores[i]? = some CPc.loopTop) (hs : s.stopped = true) :
      DynStep s { s with cores := s.cores.set i CPc.exited }
  | coreLoopTopWait (s : DynState) (i : Nat)
      (hw : s.cores[i]? = some CPc.loopTop) (hs : s.stopped = false) :
      DynStep s { s with cores := s.cores.set i CPc.waiting }
  | coreClaim (s : DynState) (i : Nat) (t : Nat) (rest : List Nat)
      (hw : s.cores[i]? = some CPc.waiting) (hq : s.tasks = t :: rest) :
      DynStep s { s with cores := s.cores.set i (CPc.running t), tasks := rest }
  | coreWakeExit (s : DynState) (i : Nat)
      (hw : s.cores[i]? = some CPc.waiting) (hs : s.stopped = true)
      (hq : s.tasks = []) :
      DynStep s { s with cores := s.cores.set i CPc.exited }
  | coreFinish (s : DynState) (i : Nat) (t : Nat)
      (hw : s.cores[i]? = some (CPc.running t)) :
      DynStep s { s with cores := s.cores.set i CPc.loopTop,
                         executed := s.executed ++ [t] }
  | tempInc (s : DynState) (j : Nat)
      (hw : s.temps[j]? = some TPc.start) :
      DynStep s { s with temps := s.temps.set j TPc.loopTop, active := s.active + 1 }
  | tempLoopTopDec (s : DynState) (j : Nat)
      (hw : s.temps[j]? = some TPc.loopTop) (hs : s.stopped = true) :
      DynStep s { s with temps := s.temps.set j TPc.dec }
  | tempLoopTopWait (s : DynState) (j : Nat)
      (hw : s.temps[j]? = some TPc.loopTop) (hs : s.stopped = false) :
      DynStep s { s with temps := s.temps.set j TPc.waiting }
  | tempTimeout (s : DynState) (j : Nat)
      (hw : s.temps[j]? = some TPc.waiting) (hq : s.tasks = [])
      (hs : s.stopped = false) :
      DynStep s { s with temps := s.temps.set j TPc.dec }
  | tempWakeDec (s : DynState) (j : Nat)
      (hw : s.temps[j]? = some TPc.waiting) (hs : s.stopped = true)
      (hq : s.tasks = []) :
      DynStep s { s with temps := s.temps.set j TPc.dec }
  | tempClaim (s : DynState) (j : Nat) (t : Nat) (rest : List Nat)
      (hw : s.temps[j]? = some TPc.waiting) (hq : s.tasks = t :: rest) :
      DynStep s { s with temps := s.temps.set j (TPc.running t), tasks := rest }
  | tempFinish (s : DynState) (j : Nat) (t : Nat)
      (hw : s.temps[j]? = some (TPc.running t)) :
      DynStep s { s with temps := s.temps.set j TPc.loopTop,
                         executed := s.executed ++ [t] }
  | tempDec (s : DynState) (j : Nat)
      (hw : s.temps[j]? = some TPc.dec) :
      DynStep s { s with temps := s.temps.set j TPc.exited, active := s.active - 1 }
  | subEnqueue (s : DynState) (k : Nat) (t : Nat)
      (hw : s.subs[k]? = some (SubPc.pending t)) (hs : s.stopped = false) :
      DynStep s { s with subs := s.subs.set k SubPc.enqueued, tasks := s.tasks ++ [t] }
  | subRejected (s : DynState) (k : Nat) (t : Nat)
      (hw : s.subs[k]? = some (SubPc.pending t)) (hs : s.stopped = true) :
      DynStep s { s with subs := s.subs.set k SubPc.done }
  | subGrowth (s : DynState) (k : Nat)
      (hw : s.subs[k]? = some SubPc.enqueued) :
      DynStep s { s with subs := s.subs.set k SubPc.done,
                         temps := if s.active < s.max_threads then
                             s.temps ++ [TPc.start] else s.temps }
  | shutdownSet (s : DynState) :
      DynStep s { s with stopped := true }

/-- Reflexive-transitive closure of `DynStep`. -/
def DynReach : DynState → DynState → Prop := Relation.ReflTransGen DynStep

/-- The pool right after `DynamicThreadPool(core, max)` returns, with `ts` the
tasks that distinct client threads are about to submit: `core` core workers at
the top of `core_worker_loop`, no temp workers, `active_threads_` initialized
to `core`. -/
def dynInit (core max : Nat) (ts : List Nat) : DynState :=
  { core_threads := core
    max_threads := max
    cores := List.replicate core CPc.loopTop
    temps := []
    subs := ts.map SubPc.pending
    tasks := []
    stopped := false
    active := core
    executed := [] }

/-- A temp worker is counted in `active_threads_` exactly between its
`fetch_add` and its `fetch_sub`. -/
def tempCounted : TPc → Bool
  | TPc.start => false
  | TPc.exited => false
  | _ => true

/-- The sequential pool produced by `construct 1 2`. -/
def dynPoolOneTwo : DPool :=
  { core_threads := 1
    max_threads := 2
    threads := [{ joinable := true }]
    tasks := []
    is_stop := false
    active_threads := 1
    startedTemps := []
    notifiedAll := false }

/-- Final state of a concrete run of the dynamic system built as (1, 1) with
two submissions: both tasks were enqueued before `shutdown` set the stop
flag, the single core worker executed task 1, then re-tested
`while (!is_stop_)` and exited, stranding task 2 in the queue. -/
def dynStranded : DynState :=
  { core_threads := 1
    max_threads := 1
    cores := [CPc.exited]
    temps := []
    subs := [SubPc.done, SubPc.done]
    tasks := [2]
    stopped := true
    active := 1
    executed := [1] }

/-- Reachable state of the dynamic system built as (1, 2) with two concurrent
submissions: both growth checks read `active_threads_ = 1` before either
spawned temp worker ran its `fetch_add`, so after both increments
`active_threads_ = 3 > max_threads_ = 2` with the pool not stopping. -/
def dynOverMax : DynState :=
  { core_threads := 1
    max_threads := 2
    cores := [CPc.loopTop]
    temps := [TPc.loopTop, TPc.loopTop]
    subs := [SubPc.done, SubPc.done]
    tasks := [1, 2]
    stopped := false
    active := 3
    executed := [] }

/-- Reachable state of the dynamic system built as (1, 2) with one
submission: the task was enqueued and then claimed by the core worker before
the submitter reached its growth check, so the queue is empty at the check. -/
def dynGrowthPre : DynState :=
  { core_threads := 1
    max_threads := 2
    cores := [CPc.running 1]
    temps := []
    subs := [SubPc.enqueued]
    tasks := []
    stopped := false
    active := 1
    executed := [] }

/-- The state after `dynGrowthPre`'s pending growth check runs: one overflow
worker was started even though the queue was empty. -/
def dynGrowthPost : DynState :=
  { core_threads := 1
    max_threads := 2
    cores := [CPc.running 1]
    temps := [TPc.start]
    subs := [SubPc.done]
    tasks := []
    stopped := false
    active := 1
    executed := [] }

/-- A state with one core worker executing task 5; used to exercise the
worker-survives-task-execution step. -/
def dynRunning : DynState :=
  { core_threads := 1
    max_threads := 2
    cores := [CPc.running 5]
    temps := []
    subs := []
    tasks := []
    stopped := false
    active := 1
    executed := [] }

/-- A stopped sequential pool, as left behind by `shutdown` on
`dynPoolOneTwo`; used to exercise the rejection path of `Submit`. -/
def dynPoolStopped : DPool :=
  { core_threads := 1
    max_threads := 2
    threads := [{ joinable := false }]
    tasks := []
    is_stop := true
    active_threads := 1
    startedTemps := []
    notifiedAll := true }

end DynamicThreadPool

/-! ## Claim theorems: sequential controller properties -/

open PoolModel

/-- C4: for every valid configuration (0 < minWorkers <= maxWorkers),
construction succeeds, starts exactly `minWorkers` core workers before
returning, leaves `activeCount()` equal to `minWorkers`, and has started no
overflow workers. -/
theorem construct_starts_min_workers (core max : Nat)
    (hpos : 0 < core) (hle : core ≤ max) :
    ∃ p : DynamicThreadPool.DPool,
      DynamicThreadPool.construct core max = Except.ok p ∧
      DynamicThreadPool.GetActiveThreadCount p = core ∧
      p.threads.length = core ∧
      (∀ th ∈ p.threads, th.joinable = true) ∧
      p.startedTemps = [] := by
  refine ⟨{ core_threads := core, max_threads := max,
            threads := List.replicate core { joinable := true },
            tasks := [], is_stop := false, active_threads := core,
            startedTemps := [], notifiedAll := false }, ?_, rfl, ?_, ?_, rfl⟩
  · simp only [DynamicThreadPool.construct]
    rw [if_neg (by omega : ¬ core > max)]
  · simp
  · intro th hth
    have := List.eq_of_mem_replicate hth
    rw [this]

/-- C4 witness: the concrete configuration (2, 6) from the repository's demo
`main`. -/
theorem construct_starts_min_workers_witness :
    ∃ p : DynamicThreadPool.DPool,
      DynamicThreadPool.construct 2 6 = Except.ok p ∧
      DynamicThreadPool.GetActiveThreadCount p = 2 ∧
      p.threads.length = 2 ∧
      (∀ th ∈ p.threads, th.joinable = true) ∧
      p.startedTemps = [] :=
  construct_starts_min_workers 2 6 (by decide) (by decide)

/-- C5: in both pools, `Submit` called while `is_stop_` is true fails with
the pool-stopped error and leaves the whole pool state (in particular the
task queue) unchanged, so the caller can distinguish rejection from
enqueueing; otherwise `Submit` appends the task to the queue and returns an
ok result handle. -/
theorem submit_rejects_iff_stopped (p : DynamicThreadPool.DPool)
    (q : SimpleThreadPool.SPool) (t : Nat) :
    (p.is_stop = true →
      DynamicThreadPool.Submit p t = (p, Except.error PoolError.poolStopped)) ∧
    (p.is_stop = false →
      (DynamicThreadPool.Submit p t).1.tasks = p.tasks ++ [t] ∧
      (DynamicThreadPool.Submit p t).2 = Except.ok t) ∧
    (q.is_stop = true →
      SimpleThreadPool.Submit q t = (q, Except.error PoolError.poolStopped)) ∧
    (q.is_stop = false →
      (SimpleThreadPool.Submit q t).1.tasks = q.tasks ++ [t] ∧
      (SimpleThreadPool.Submit q t).2 = Except.ok t) := by
  refine ⟨?_, ?_, ?_, ?_⟩
  · intro h; simp [DynamicThreadPool.Submit, h]
  · intro h
    by_cases hlt : p.active_threads < p.max_threads <;>
      simp [DynamicThreadPool.Submit, h, hlt]
  · intro h; simp [SimpleThreadPool.Submit, h]
  · intro h; simp [SimpleThreadPool.Submit, h]

/-- C5 witness: rejection on a concrete stopped pool and enqueueing on a
concrete live pool, for both variants. -/
theorem submit_rejects_iff_stopped_witness :
    (DynamicThreadPool.Submit DynamicThreadPool.dynPoolStopped 7 =
      (DynamicThreadPool.dynPoolStopped, Except.error PoolError.poolStopped)) ∧
    ((DynamicThreadPool.Submit DynamicThreadPool.dynPoolOneTwo 7).1.tasks = [7] ∧
      (DynamicThreadPool.Submit DynamicThreadPool.dynPoolOneTwo 7).2 = Except.ok 7) ∧
    (SimpleThreadPool.Submit SimpleThreadPool.simPoolStopped 7 =
      (SimpleThreadPool.simPoolStopped, Except.error PoolError.poolStopped)) ∧
    ((SimpleThreadPool.Submit SimpleThreadPool.simPoolTwo 7).1.tasks = [7] ∧
      (SimpleThreadPool.Submit SimpleThreadPool.simPoolTwo 7).2 = Except.ok 7) := by
  refine ⟨?_, ?_, ?_, ?_⟩
  · exact (submit_rejects_iff_stopped DynamicThreadPool.dynPoolStopped
      SimpleThreadPool.simPoolStopped 7).1 rfl
  · exact (submit_rejects_iff_stopped DynamicThreadPool.dynPoolOneTwo
      SimpleThreadPool.simPoolTwo 7).2.1 rfl
  · exact (submit_rejects_iff_stopped DynamicThreadPool.dynPoolStopped
      SimpleThreadPool.simPoolStopped 7).2.2.1 rfl
  · exact (submit_rejects_iff_stopped DynamicThreadPool.dynPoolOneTwo
      SimpleThreadPool.simPoolTwo 7).2.2.2 rfl

/-- C7 counterexample: the configuration (minWorkers = 0, maxWorkers = 5)
violates `0 < minWorkers <= maxWorkers` (zero paired with a positive
counterpart), yet the `DynamicThreadPool` constructor accepts it: it only
rejects `core_threads > max_threads`. -/
theorem construct_accepts_zero_min :
    DynamicThreadPool.construct 0 5 ≠
      Except.error PoolError.invalidConfiguration ∧
    ¬ (0 < (0 : Nat)) := by
  constructor
  · simp [DynamicThreadPool.construct]
  · decide

/-- C7 amended: construction fails with `InvalidConfiguration` exactly when
`minWorkers > maxWorkers`; a zero `minWorkers` (even with a positive
`maxWorkers`) is accepted. On failure the constructor throws before any
worker is started, so no partial pool exists. -/
theorem construct_fails_iff_min_gt_max (core max : Nat) :
    DynamicThreadPool.construct core max =
      Except.error PoolError.invalidConfiguration ↔ max < core := by
  by_cases h : max < core <;> simp [DynamicThreadPool.construct, h]

/-- C9: `shutdown` is idempotent in both pools: a second call leaves the
state exactly as after the first call and joins no thread (so no thread is
ever joined twice; both models are total functions, so no exception arises). -/
theorem shutdown_idempotent (p : DynamicThreadPool.DPool)
    (q : SimpleThreadPool.SPool) :
    DynamicThreadPool.shutdown (DynamicThreadPool.shutdown p) =
      DynamicThreadPool.shutdown p ∧
    (DynamicThreadPool.shutdownRun (DynamicThreadPool.shutdown p)).2 = [] ∧
    SimpleThreadPool.shutdown (SimpleThreadPool.shutdown q) =
      SimpleThreadPool.shutdown q ∧
    (SimpleThreadPool.shutdownRun (SimpleThreadPool.shutdown q)).2 = [] := by
  have hjoin : ∀ th : CoreThread,
      DynamicThreadPool.joinThread (DynamicThreadPool.joinThread th) =
        DynamicThreadPool.joinThread th := by
    intro th
    cases th with
    | mk j => cases j <;> simp [DynamicThreadPool.joinThread]
  have hnotj : ∀ th : CoreThread,
      (DynamicThreadPool.joinThread th).joinable = false := by
    intro th
    cases th with
    | mk j => cases j <;> simp [DynamicThreadPool.joinThread]
  refine ⟨?_, ?_, ?_, ?_⟩
  · simp only [DynamicThreadPool.shutdown, DynamicThreadPool.shutdownRun,
      List.map_map]
    congr 1
    apply List.map_congr_left
    intro th _
    exact hjoin th
  · simp only [DynamicThreadPool.shutdown, DynamicThreadPool.shutdownRun]
    rw [List.filter_eq_nil_iff]
    intro th hth
    rcases List.mem_map.mp hth with ⟨u, _, hu⟩
    rw [← hu]
    simp [hnotj u]
  · by_cases h : q.is_stop <;>
      simp [SimpleThreadPool.shutdown, SimpleThreadPool.shutdownRun, h]
  · by_cases h : q.is_stop <;>
      simp [SimpleThreadPool.shutdown, SimpleThreadPool.shutdownRun, h]

/-- C10: both destructors invoke the full shutdown protocol: destruction
equals `shutdown`, and after it the stop flag is set, all workers were woken
(`notify_all`), every core thread of the dynamic pool has been joined, and a
not-yet-stopped simple pool has had all its threads joined and cleared. -/
theorem destructor_runs_shutdown (p : DynamicThreadPool.DPool)
    (q : SimpleThreadPool.SPool) :
    DynamicThreadPool.destruct p = DynamicThreadPool.shutdown p ∧
    (DynamicThreadPool.destruct p).is_stop = true ∧
    (DynamicThreadPool.destruct p).notifiedAll = true ∧
    (∀ th ∈ (DynamicThreadPool.destruct p).threads, th.joinable = false) ∧
    SimpleThreadPool.destruct q = SimpleThreadPool.shutdown q ∧
    (SimpleThreadPool.destruct q).is_stop = true ∧
    (q.is_stop = false →
      (SimpleThreadPool.destruct q).threads = [] ∧
      (SimpleThreadPool.destruct q).notifiedAll = true) := by
  have hnotj : ∀ th : CoreThread,
      (DynamicThreadPool.joinThread th).joinable = false := by
    intro th
    cases th with
    | mk j => cases j <;> simp [DynamicThreadPool.joinThread]
  refine ⟨rfl, rfl, rfl, ?_, rfl, ?_, ?_⟩
  · intro th hth
    simp only [DynamicThreadPool.destruct, DynamicThreadPool.shutdown,
      DynamicThreadPool.shutdownRun] at hth
    rcases List.mem_map.mp hth with ⟨u, _, hu⟩
    rw [← hu]
    exact hnotj u
  · by_cases h : q.is_stop <;>
      simp [SimpleThreadPool.destruct, SimpleThreadPool.shutdown,
        SimpleThreadPool.shutdownRun, h]
  · intro h
    simp [SimpleThreadPool.destruct, SimpleThreadPool.shutdown,
      SimpleThreadPool.shutdownRun, h]

/-- C10 witness: destruction of concrete live pools. -/
theorem destructor_runs_shutdown_witness :
    DynamicThreadPool.destruct DynamicThreadPool.dynPoolOneTwo =
      DynamicThreadPool.shutdown DynamicThreadPool.dynPoolOneTwo ∧
    (DynamicThreadPool.destruct DynamicThreadPool.dynPoolOneTwo).is_stop = true ∧
    (SimpleThreadPool.destruct SimpleThreadPool.simPoolTwo).threads = [] := by
  refine ⟨(destructor_runs_shutdown DynamicThreadPool.dynPoolOneTwo
      SimpleThreadPool.simPoolTwo).1,
    (destructor_runs_shutdown DynamicThreadPool.dynPoolOneTwo
      SimpleThreadPool.simPoolTwo).2.1,
    ((destructor_runs_shutdown DynamicThreadPool.dynPoolOneTwo
      SimpleThreadPool.simPoolTwo).2.2.2.2.2.2 rfl).1⟩

/-- C6 counterexample: in the dynamic pool built as (1, 2), a single `Submit`
starts one overflow thread, which is detached at creation; after `shutdown`
returns, that thread has still never been joined, so shutdown does not join
every worker thread the pool ever started. -/
theorem temp_thread_unjoined_after_shutdown :
    DynamicThreadPool.construct 1 2 = Except.ok DynamicThreadPool.dynPoolOneTwo ∧
    (DynamicThreadPool.Submit DynamicThreadPool.dynPoolOneTwo 7).2 = Except.ok 7 ∧
    (DynamicThreadPool.shutdown
        (DynamicThreadPool.Submit DynamicThreadPool.dynPoolOneTwo 7).1).startedTemps =
      [{ detached := true, joined := false }] := by
  decide

/-- C6 amended: `shutdown` sets the stop flag, wakes all workers and joins
every core worker thread, but overflow threads are detached at creation and
never joined: `Submit` only ever records detached, unjoined temp threads, and
`shutdown` leaves every such record untouched. -/
theorem shutdown_joins_core_only (p : DynamicThreadPool.DPool) (t : Nat)
    (htemps : ∀ tr ∈ p.startedTemps, tr.detached = true ∧ tr.joined = false) :
    (DynamicThreadPool.shutdown p).is_stop = true ∧
    (DynamicThreadPool.shutdown p).notifiedAll = true ∧
    (∀ th ∈ (DynamicThreadPool.shutdown p).threads, th.joinable = false) ∧
    (∀ tr ∈ (DynamicThreadPool.shutdown p).startedTemps,
      tr.detached = true ∧ tr.joined = false) ∧
    (∀ tr ∈ (DynamicThreadPool.Submit p t).1.startedTemps,
      tr.detached = true ∧ tr.joined = false) := by
  have hnotj : ∀ th : CoreThread,
      (DynamicThreadPool.joinThread th).joinable = false := by
    intro th
    cases th with
    | mk j => cases j <;> simp [DynamicThreadPool.joinThread]
  refine ⟨rfl, rfl, ?_, ?_, ?_⟩
  · intro th hth
    simp only [DynamicThreadPool.shutdown, DynamicThreadPool.shutdownRun] at hth
    rcases List.mem_map.mp hth with ⟨u, _, hu⟩
    rw [← hu]
    exact hnotj u
  · intro tr htr
    exact htemps tr htr
  · intro tr htr
    simp only [DynamicThreadPool.Submit] at htr
    by_cases hs : p.is_stop
    · simp only [hs, if_true] at htr
      exact htemps tr htr
    · simp only [hs, Bool.false_eq_true, if_false] at htr
      by_cases hlt : p.active_threads < p.max_threads
      · simp only [hlt, if_true, List.mem_append] at htr
        rcases htr with htr | htr
        · exact htemps tr htr
        · rcases List.mem_singleton.mp htr with rfl
          exact ⟨rfl, rfl⟩
      · simp only [hlt, if_false] at htr
        exact htemps tr htr

/-- C6 amended witness: the concrete (1, 2) pool. -/
theorem shutdown_joins_core_only_witness :
    (DynamicThreadPool.shutdown DynamicThreadPool.dynPoolOneTwo).is_stop = true ∧
    (∀ tr ∈ (DynamicThreadPool.Submit DynamicThreadPool.dynPoolOneTwo 9).1.startedTemps,
      tr.detached = true ∧ tr.joined = false) :=
  ⟨(shutdown_joins_core_only DynamicThreadPool.dynPoolOneTwo 9 (by decide)).1,
   (shutdown_joins_core_only DynamicThreadPool.dynPoolOneTwo 9 (by decide)).2.2.2.2⟩

/-! ## Helper lemmas for the SimpleThreadPool transition system -/

namespace SimpleThreadPool

lemma mem_set_self {α : Type} (l : List α) (i : Nat) (v : α) (h : i < l.length) :
    v ∈ l.set i v := by
  have hl : i < (l.set i v).length := by simpa using h
  have he : (l.set i v)[i] = v := by simp [List.getElem_set]
  have hm := List.getElem_mem hl
  rw [he] at hm
  exact hm

lemma runningOf_cons (w : SWpc) (ws : List SWpc) :
    runningOf (w :: ws) = pcTasks w ++ runningOf ws := by
  cases w <;> simp [runningOf, pcTasks, List.filterMap_cons]

lemma runningOf_set (ws : List SWpc) (i : Nat) (v : SWpc) (h : i < ws.length) :
    (runningOf (ws.set i v) : Multiset (Nat × Body)) +
        (pcTasks (ws.get ⟨i, h⟩) : Multiset (Nat × Body)) =
      (runningOf ws : Multiset (Nat × Body)) +
        (pcTasks v : Multiset (Nat × Body)) := by
  induction ws generalizing i with
  | nil => exact absurd h (Nat.not_lt_zero i)
  | cons w tl ih =>
    cases i with
    | zero =>
        simp only [List.set_cons_zero, List.get, runningOf_cons,
          ← Multiset.coe_add]
        abel
    | succ m =>
        have hm : m < tl.length := Nat.lt_of_succ_lt_succ h
        have := ih m hm
        simp only [List.set_cons_succ, List.get, runningOf_cons,
          ← Multiset.coe_add] at this ⊢
        calc (pcTasks w : Multiset (Nat × Body)) + ↑(runningOf (tl.set m v)) +
              ↑(pcTasks (tl.get ⟨m, hm⟩)) =
            (pcTasks w : Multiset (Nat × Body)) +
              (↑(runningOf (tl.set m v)) + ↑(pcTasks (tl.get ⟨m, hm⟩))) := by abel
          _ = (pcTasks w : Multiset (Nat × Body)) +
              (↑(runningOf tl) + ↑(pcTasks v)) := by rw [this]
          _ = (pcTasks w : Multiset (Nat × Body)) + ↑(runningOf tl) +
              ↑(pcTasks v) := by abel

lemma runningOf_eq_nil (ws : List SWpc) (h : ∀ w ∈ ws, w = SWpc.exited) :
    runningOf ws = [] := by
  induction ws with
  | nil => rfl
  | cons w tl ih =>
      have hw := h w (by simp)
      rw [runningOf_cons, hw]
      have htl : runningOf tl = [] := ih fun x hx => h x (by simp [hx])
      simp [pcTasks, htl]

lemma runningOf_replicate (n : Nat) :
    runningOf (List.replicate n SWpc.waiting) = [] := by
  induction n with
  | zero => rfl
  | succ m ih => rw [List.replicate_succ, runningOf_cons]; simp [pcTasks, ih]

/-- `SimInv` holds initially for any non-empty roster. -/
lemma simInv_init (n : Nat) (hn : 0 < n) : SimInv (simInit n) := by
  refine ⟨?_, ?_, ?_, ?_⟩
  · simp [simInit, runningOf_replicate]
  · intro _ w hw
    rw [List.eq_of_mem_replicate hw]
    simp
  · simp only [simInit]
    intro hc
    have := congrArg List.length hc
    simp at this
    omega
  · intro h
    exact absurd rfl h

/-- `SimInv` is preserved by every step. -/
lemma simInv_step {s s' : SimState} (hstep : SimStep s s') (hinv : SimInv s) :
    SimInv s' := by
  obtain ⟨hA, hB, hC, hD⟩ := hinv
  cases hstep with
  | submit t h =>
      refine ⟨?_, ?_, hC, ?_⟩
      · simp only [← Multiset.coe_add]
        rw [hA]
        abel
      · intro hstop w hw
        exact hB hstop w hw
      · intro _
        obtain ⟨w, hwmem⟩ := List.exists_mem_of_ne_nil _ hC
        exact ⟨w, hwmem, hB h w hwmem⟩
  | claim i t rest hw hq =>
      obtain ⟨hlen, hEl⟩ := List.getElem?_eq_some.mp hw
      have hget : s.workers.get ⟨i, hlen⟩ = SWpc.waiting := hEl
      have hrun := runningOf_set s.workers i (SWpc.running t.1 t.2) hlen
      rw [hget] at hrun
      simp only [pcTasks, Multiset.coe_nil, add_zero] at hrun
      refine ⟨?_, ?_, ?_, ?_⟩
      · show (s.submitted : Multiset (Nat × Body)) = _
        rw [hq] at hA
        have hcons : (t :: rest : List (Nat × Body)) = [t] ++ rest := rfl
        rw [hcons] at hA
        simp only [← Multiset.coe_add] at hA ⊢
        rw [hA, hrun]
        abel
      · intro hstop w hwmem
        rcases List.mem_or_eq_of_mem_set hwmem with hmem | rfl
        · exact hB hstop w hmem
        · simp
      · intro hnil
        exact hC ((List.set_eq_nil_iff _ _).mp hnil)
      · intro _
        exact ⟨SWpc.running t.1 t.2, mem_set_self _ i _ hlen, by simp⟩
  | finish i tid b hw =>
      obtain ⟨hlen, hEl⟩ := List.getElem?_eq_some.mp hw
      have hget : s.workers.get ⟨i, hlen⟩ = SWpc.running tid b := hEl
      have hrun := runningOf_set s.workers i SWpc.waiting hlen
      rw [hget] at hrun
      simp only [pcTasks, Multiset.coe_nil, add_zero] at hrun
      refine ⟨?_, ?_, ?_, ?_⟩
      · show (s.submitted : Multiset (Nat × Body)) = _
        simp only [← Multiset.coe_add]
        rw [hA, ← hrun]
        abel
      · intro hstop w hwmem
        rcases List.mem_or_eq_of_mem_set hwmem with hmem | rfl
        · exact hB hstop w hmem
        · simp
      · intro hnil
        exact hC ((List.set_eq_nil_iff _ _).mp hnil)
      · intro _
        exact ⟨SWpc.waiting, mem_set_self _ i _ hlen, by simp⟩
  | exitw i hw hs hq =>
      obtain ⟨hlen, hEl⟩ := List.getElem?_eq_some.mp hw
      have hget : s.workers.get ⟨i, hlen⟩ = SWpc.waiting := hEl
      have hrun := runningOf_set s.workers i SWpc.exited hlen
      rw [hget] at hrun
      simp only [pcTasks, Multiset.coe_nil, add_zero] at hrun
      refine ⟨?_, ?_, ?_, ?_⟩
      · show (s.submitted : Multiset (Nat × Body)) = _
        rw [hA, hrun]
      · intro hstop
        exact absurd hstop (by simp [hs])
      · intro hnil
        exact hC ((List.set_eq_nil_iff _ _).mp hnil)
      · intro hne
        exact absurd hq hne
  | setStop =>
      refine ⟨hA, ?_, hC, hD⟩
      intro hstop
      exact absurd hstop (by simp)

/-- `SimInv` holds in every state reachable from an invariant state. -/
lemma simInv_reach {s s' : SimState} (hr : SimReach s s') (hinv : SimInv s) :
    SimInv s' := by
  induction hr with
  | refl => exact hinv
  | tail _ hstep ih => exact simInv_step hstep ih

end SimpleThreadPool

/-- C1 (amended): in the `SimpleThreadPool` worker loop, a worker woken while
`is_stop_` is true exits only after observing the queue empty (first
conjunct: every step in which a waiting worker exits happens from a state
with an empty queue), and consequently, once every worker has exited, the
queue is empty and every task ever enqueued has been executed with its
outcome delivered to its result channel (second conjunct). Submissions while
stopping are rejected, so no hypothesis about concurrent submissions is
needed. The `DynamicThreadPool` core worker violates this claim; see the
counterexample. -/
theorem simple_pool_drains_all_tasks (n : Nat) (hn : 0 < n)
    (s : SimpleThreadPool.SimState)
    (hreach : SimpleThreadPool.SimReach (SimpleThreadPool.simInit n) s) :
    (∀ t u : SimpleThreadPool.SimState, SimpleThreadPool.SimStep t u → ∀ i : Nat,
        t.workers[i]? = some SimpleThreadPool.SWpc.waiting →
        u.workers[i]? = some SimpleThreadPool.SWpc.exited →
        t.tasks = []) ∧
    ((∀ w ∈ s.workers, w = SimpleThreadPool.SWpc.exited) →
      s.tasks = [] ∧
        (s.results : Multiset (Nat × Body)) = (s.submitted : Multiset (Nat × Body))) := by
  constructor
  · intro t u hstep i hw hx
    cases hstep with
    | submit t' h =>
        rw [hw] at hx
        exact absurd hx (by simp)
    | claim j t' rest hwj hq =>
        rw [List.getElem?_set] at hx
        by_cases hj : j = i
        · rw [if_pos hj] at hx
          split at hx
          · exact absurd hx (by simp)
          · exact absurd hx (by simp)
        · rw [if_neg hj] at hx
          rw [hw] at hx
          exact absurd hx (by simp)
    | finish j tid b hwj =>
        rw [List.getElem?_set] at hx
        by_cases hj : j = i
        · rw [if_pos hj] at hx
          split at hx
          · exact absurd hx (by simp)
          · exact absurd hx (by simp)
        · rw [if_neg hj] at hx
          rw [hw] at hx
          exact absurd hx (by simp)
    | exitw j hwj hs hq => exact hq
    | setStop =>
        rw [hw] at hx
        exact absurd hx (by simp)
  · intro hall
    have hinv := SimpleThreadPool.simInv_reach hreach (SimpleThreadPool.simInv_init n hn)
    obtain ⟨hA, hB, hC, hD⟩ := hinv
    have htasks : s.tasks = [] := by
      by_contra hne
      obtain ⟨w, hwmem, hwne⟩ := hD hne
      exact hwne (hall w hwmem)
    refine ⟨htasks, ?_⟩
    have hrun : SimpleThreadPool.runningOf s.workers = [] :=
      SimpleThreadPool.runningOf_eq_nil _ hall
    rw [htasks, hrun] at hA
    simpa using hA.symm

/-- C1 amended witness: the one-worker pool where shutdown is requested and
the worker exits after observing the empty queue; every (zero) submitted
task was executed. -/
theorem simple_pool_drains_all_tasks_witness :
    SimpleThreadPool.simFinalDrained.tasks = [] ∧
      (SimpleThreadPool.simFinalDrained.results : Multiset (Nat × Body)) =
        (SimpleThreadPool.simFinalDrained.submitted : Multiset (Nat × Body)) := by
  have h1 : SimpleThreadPool.SimStep (SimpleThreadPool.simInit 1)
      { SimpleThreadPool.simInit 1 with stopped := true } :=
    SimpleThreadPool.SimStep.setStop (SimpleThreadPool.simInit 1)
  have h2 : SimpleThreadPool.SimStep
      { SimpleThreadPool.simInit 1 with stopped := true }
      SimpleThreadPool.simFinalDrained :=
    SimpleThreadPool.SimStep.exitw _ 0 rfl rfl rfl
  have hreach : SimpleThreadPool.SimReach (SimpleThreadPool.simInit 1)
      SimpleThreadPool.simFinalDrained :=
    Relation.ReflTransGen.head h1 (Relation.ReflTransGen.head h2 Relation.ReflTransGen.refl)
  exact (simple_pool_drains_all_tasks 1 (by decide)
    SimpleThreadPool.simFinalDrained hreach).2 (by decide)

/-! ## Helper lemmas for the DynamicThreadPool transition system -/

namespace DynamicThreadPool

lemma countP_set {α : Type} (p : α → Bool) (l : List α) (i : Nat) (v : α)
    (h : i < l.length) :
    (l.set i v).countP p + (if p (l.get ⟨i, h⟩) then 1 else 0) =
      l.countP p + (if p v then 1 else 0) := by
  induction l generalizing i with
  | nil => exact absurd h (Nat.not_lt_zero i)
  | cons w tl ih =>
    cases i with
    | zero =>
        by_cases hv : p v <;> by_cases hw : p w <;>
          simp [List.countP_cons, List.set_cons_zero, List.get, hv, hw]
    | succ m =>
        have hm : m < tl.length := Nat.lt_of_succ_lt_succ h
        have hrec := ih m hm
        by_cases hw : p w <;>
          by_cases hg : p (tl.get ⟨m, hm⟩) <;>
          by_cases hv : p v <;>
          simp [List.countP_cons, List.set_cons_succ, List.get, hw, hg, hv]
            at hrec ⊢ <;>
          omega

/-- No step changes the configured core thread count. -/
lemma core_threads_step {s s' : DynState} (hstep : DynStep s s') :
    s'.core_threads = s.core_threads := by
  cases hstep <;> rfl

/-- `active_threads_` always equals `core_threads_` plus the number of temp
workers currently between their `fetch_add` and their `fetch_sub`. -/
lemma dynCount_step {s s' : DynState} (hstep : DynStep s s')
    (hA : s.active = s.core_threads + s.temps.countP tempCounted) :
    s'.active = s'.core_threads + s'.temps.countP tempCounted := by
  cases hstep with
  | coreLoopTopExit i hw hs => exact hA
  | coreLoopTopWait i hw hs => exact hA
  | coreClaim i t rest hw hq => exact hA
  | coreWakeExit i hw hs hq => exact hA
  | coreFinish i t hw => exact hA
  | tempInc j hw =>
      obtain ⟨hlen, hEl⟩ := List.getElem?_eq_some.mp hw
      have hget : s.temps.get ⟨j, hlen⟩ = TPc.start := hEl
      have hcnt := countP_set tempCounted s.temps j TPc.loopTop hlen
      rw [hget] at hcnt
      simp [tempCounted] at hcnt
      show s.active + 1 = s.core_threads + (s.temps.set j TPc.loopTop).countP tempCounted
      omega
  | tempLoopTopDec j hw hs =>
      obtain ⟨hlen, hEl⟩ := List.getElem?_eq_some.mp hw
      have hget : s.temps.get ⟨j, hlen⟩ = TPc.loopTop := hEl
      have hcnt := countP_set tempCounted s.temps j TPc.dec hlen
      rw [hget] at hcnt
      simp [tempCounted] at hcnt
      show s.active = s.core_threads + (s.temps.set j TPc.dec).countP tempCounted
      omega
  | tempLoopTopWait j hw hs =>
      obtain ⟨hlen, hEl⟩ := List.getElem?_eq_some.mp hw
      have hget : s.temps.get ⟨j, hlen⟩ = TPc.loopTop := hEl
      have hcnt := countP_set tempCounted s.temps j TPc.waiting hlen
      rw [hget] at hcnt
      simp [tempCounted] at hcnt
      show s.active = s.core_threads + (s.temps.set j TPc.waiting).countP tempCounted
      omega
  | tempTimeout j hw hq hs =>
      obtain ⟨hlen, hEl⟩ := List.getElem?_eq_some.mp hw
      have hget : s.temps.get ⟨j, hlen⟩ = TPc.waiting := hEl
      have hcnt := countP_set tempCounted s.temps j TPc.dec hlen
      rw [hget] at hcnt
      simp [tempCounted] at hcnt
      show s.active = s.core_threads + (s.temps.set j TPc.dec).countP tempCounted
      omega
  | tempWakeDec j hw hs hq =>
      obtain ⟨hlen, hEl⟩ := List.getElem?_eq_some.mp hw
      have hget : s.temps.get ⟨j, hlen⟩ = TPc.waiting := hEl
      have hcnt := countP_set tempCounted s.temps j TPc.dec hlen
      rw [hget] at hcnt
      simp [tempCounted] at hcnt
      show s.active = s.core_threads + (s.temps.set j TPc.dec).countP tempCounted
      omega
  | tempClaim j t rest hw hq =>
      obtain ⟨hlen, hEl⟩ := List.getElem?_eq_some.mp hw
      have hget : s.temps.get ⟨j, hlen⟩ = TPc.waiting := hEl
      have hcnt := countP_set tempCounted s.temps j (TPc.running t) hlen
      rw [hget] at hcnt
      simp [tempCounted] at hcnt
      show s.active = s.core_threads + (s.temps.set j (TPc.running t)).countP tempCounted
      omega
  | tempFinish j t hw =>
      obtain ⟨hlen, hEl⟩ := List.getElem?_eq_some.mp hw
      have hget : s.temps.get ⟨j, hlen⟩ = TPc.running t := hEl
      have hcnt := countP_set tempCounted s.temps j TPc.loopTop hlen
      rw [hget] at hcnt
      simp [tempCounted] at hcnt
      show s.active = s.core_threads + (s.temps.set j TPc.loopTop).countP tempCounted
      omega
  | tempDec j hw =>
      obtain ⟨hlen, hEl⟩ := List.getElem?_eq_some.mp hw
      have hget : s.temps.get ⟨j, hlen⟩ = TPc.dec := hEl
      have hcnt := countP_set tempCounted s.temps j TPc.exited hlen
      rw [hget] at hcnt
      simp [tempCounted] at hcnt
      show s.active - 1 = s.core_threads + (s.temps.set j TPc.exited).countP tempCounted
      omega
  | subEnqueue k t hw hs => exact hA
  | subRejected k t hw hs => exact hA
  | subGrowth k hw =>
      show s.active = s.core_threads +
        (if s.active < s.max_threads then s.temps ++ [TPc.start] else s.temps).countP
          tempCounted
      by_cases h : s.active < s.max_threads <;>
        simp [h, List.countP_append, List.countP_cons, tempCounted] <;>
        exact hA
  | shutdownSet => exact hA

end DynamicThreadPool

/-- C1 counterexample: in the `DynamicThreadPool` built as (1, 1), two tasks
are submitted before `shutdown` sets the stop flag; the core worker finishes
task 1, re-tests the outer `while (!is_stop_)` and exits even though task 2
is still queued. The final state is reachable, stopping, has every worker
exited, and a non-empty queue: the claimed drain guarantee fails for this
pool. -/
theorem dynamic_worker_exits_with_queued_task :
    DynamicThreadPool.DynReach (DynamicThreadPool.dynInit 1 1 [1, 2])
      DynamicThreadPool.dynStranded ∧
    (∀ w ∈ DynamicThreadPool.dynStranded.cores, w = DynamicThreadPool.CPc.exited) ∧
    DynamicThreadPool.dynStranded.temps = [] ∧
    DynamicThreadPool.dynStranded.stopped = true ∧
    DynamicThreadPool.dynStranded.executed = [1] ∧
    DynamicThreadPool.dynStranded.tasks = [2] := by
  refine ⟨?_, by decide, rfl, rfl, rfl, rfl⟩
  have s1 : DynamicThreadPool.DynStep (DynamicThreadPool.dynInit 1 1 [1, 2])
      ⟨1, 1, [DynamicThreadPool.CPc.loopTop], [],
        [DynamicThreadPool.SubPc.enqueued, DynamicThreadPool.SubPc.pending 2],
        [1], false, 1, []⟩ :=
    DynamicThreadPool.DynStep.subEnqueue _ 0 1 rfl rfl
  have s2 : DynamicThreadPool.DynStep
      ⟨1, 1, [DynamicThreadPool.CPc.loopTop], [],
        [DynamicThreadPool.SubPc.enqueued, DynamicThreadPool.SubPc.pending 2],
        [1], false, 1, []⟩
      ⟨1, 1, [DynamicThreadPool.CPc.loopTop], [],
        [DynamicThreadPool.SubPc.done, DynamicThreadPool.SubPc.pending 2],
        [1], false, 1, []⟩ :=
    DynamicThreadPool.DynStep.subGrowth _ 0 rfl
  have s3 : DynamicThreadPool.DynStep
      ⟨1, 1, [DynamicThreadPool.CPc.loopTop], [],
        [DynamicThreadPool.SubPc.done, DynamicThreadPool.SubPc.pending 2],
        [1], false, 1, []⟩
      ⟨1, 1, [DynamicThreadPool.CPc.loopTop], [],
        [DynamicThreadPool.SubPc.done, DynamicThreadPool.SubPc.enqueued],
        [1, 2], false, 1, []⟩ :=
    DynamicThreadPool.DynStep.subEnqueue _ 1 2 rfl rfl
  have s4 : DynamicThreadPool.DynStep
      ⟨1, 1, [DynamicThreadPool.CPc.loopTop], [],
        [DynamicThreadPool.SubPc.done, DynamicThreadPool.SubPc.enqueued],
        [1, 2], false, 1, []⟩
      ⟨1, 1, [DynamicThreadPool.CPc.loopTop], [],
        [DynamicThreadPool.SubPc.done, DynamicThreadPool.SubPc.done],
        [1, 2], false, 1, []⟩ :=
    DynamicThreadPool.DynStep.subGrowth _ 1 rfl
  have s5 : DynamicThreadPool.DynStep
      ⟨1, 1, [DynamicThreadPool.CPc.loopTop], [],
        [DynamicThreadPool.SubPc.done, DynamicThreadPool.SubPc.done],
        [1, 2], false, 1, []⟩
      ⟨1, 1, [DynamicThreadPool.CPc.waiting], [],
        [DynamicThreadPool.SubPc.done, DynamicThreadPool.SubPc.done],
        [1, 2], false, 1, []⟩ :=
    DynamicThreadPool.DynStep.coreLoopTopWait _ 0 rfl rfl
  have s6 : DynamicThreadPool.DynStep
      ⟨1, 1, [DynamicThreadPool.CPc.waiting], [],
        [DynamicThreadPool.SubPc.done, DynamicThreadPool.SubPc.done],
        [1, 2], false, 1, []⟩
      ⟨1, 1, [DynamicThreadPool.CPc.running 1], [],
        [DynamicThreadPool.SubPc.done, DynamicThreadPool.SubPc.done],
        [2], false, 1, []⟩ :=
    DynamicThreadPool.DynStep.coreClaim _ 0 1 [2] rfl rfl
  have s7 : DynamicThreadPool.DynStep
      ⟨1, 1, [DynamicThreadPool.CPc.running 1], [],
        [DynamicThreadPool.SubPc.done, DynamicThreadPool.SubPc.done],
        [2], false, 1, []⟩
      ⟨1, 1, [DynamicThreadPool.CPc.running 1], [],
        [DynamicThreadPool.SubPc.done, DynamicThreadPool.SubPc.done],
        [2], true, 1, []⟩ :=
    DynamicThreadPool.DynStep.shutdownSet _
  have s8 : DynamicThreadPool.DynStep
      ⟨1, 1, [DynamicThreadPool.CPc.running 1], [],
        [DynamicThreadPool.SubPc.done, DynamicThreadPool.SubPc.done],
        [2], true, 1, []⟩
      ⟨1, 1, [DynamicThreadPool.CPc.loopTop], [],
        [DynamicThreadPool.SubPc.done, DynamicThreadPool.SubPc.done],
        [2], true, 1, [1]⟩ :=
    DynamicThreadPool.DynStep.coreFinish _ 0 1 rfl
  have s9 : DynamicThreadPool.DynStep
      ⟨1, 1, [DynamicThreadPool.CPc.loopTop], [],
        [DynamicThreadPool.SubPc.done, DynamicThreadPool.SubPc.done],
        [2], true, 1, [1]⟩
      DynamicThreadPool.dynStranded :=
    DynamicThreadPool.DynStep.coreLoopTopExit _ 0 rfl rfl
  exact Relation.ReflTransGen.head s1 (Relation.ReflTransGen.head s2
    (Relation.ReflTransGen.head s3 (Relation.ReflTransGen.head s4
      (Relation.ReflTransGen.head s5 (Relation.ReflTransGen.head s6
        (Relation.ReflTransGen.head s7 (Relation.ReflTransGen.head s8
          (Relation.ReflTransGen.head s9 Relation.ReflTransGen.refl))))))))

/-- C2 counterexample: in the `DynamicThreadPool` built as (1, 2), two
concurrent `Submit` calls both read `active_threads_ = 1 < 2` at the
unlocked growth check before either spawned temp worker has run its
`fetch_add`; after both increments run, `active_threads_ = 3` exceeds
`max_threads_ = 2` while the pool is not stopping, violating the claimed
invariant `activeCount <= maxWorkers`. -/
theorem active_count_exceeds_max :
    DynamicThreadPool.DynReach (DynamicThreadPool.dynInit 1 2 [1, 2])
      DynamicThreadPool.dynOverMax ∧
    DynamicThreadPool.dynOverMax.stopped = false ∧
    DynamicThreadPool.dynOverMax.core_threads = 1 ∧
    DynamicThreadPool.dynOverMax.max_threads = 2 ∧
    DynamicThreadPool.dynOverMax.active = 3 := by
  refine ⟨?_, rfl, rfl, rfl, rfl⟩
  have s1 : DynamicThreadPool.DynStep (DynamicThreadPool.dynInit 1 2 [1, 2])
      ⟨1, 2, [DynamicThreadPool.CPc.loopTop], [],
        [DynamicThreadPool.SubPc.enqueued, DynamicThreadPool.SubPc.pending 2],
        [1], false, 1, []⟩ :=
    DynamicThreadPool.DynStep.subEnqueue _ 0 1 rfl rfl
  have s2 : DynamicThreadPool.DynStep
      ⟨1, 2, [DynamicThreadPool.CPc.loopTop], [],
        [DynamicThreadPool.SubPc.enqueued, DynamicThreadPool.SubPc.pending 2],
        [1], false, 1, []⟩
      ⟨1, 2, [DynamicThreadPool.CPc.loopTop], [DynamicThreadPool.TPc.start],
        [DynamicThreadPool.SubPc.done, DynamicThreadPool.SubPc.pending 2],
        [1], false, 1, []⟩ :=
    DynamicThreadPool.DynStep.subGrowth _ 0 rfl
  have s3 : DynamicThreadPool.DynStep
      ⟨1, 2, [DynamicThreadPool.CPc.loopTop], [DynamicThreadPool.TPc.start],
        [DynamicThreadPool.SubPc.done, DynamicThreadPool.SubPc.pending 2],
        [1], false, 1, []⟩
      ⟨1, 2, [DynamicThreadPool.CPc.loopTop], [DynamicThreadPool.TPc.start],
        [DynamicThreadPool.SubPc.done, DynamicThreadPool.SubPc.enqueued],
        [1, 2], false, 1, []⟩ :=
    DynamicThreadPool.DynStep.subEnqueue _ 1 2 rfl rfl
  have s4 : DynamicThreadPool.DynStep
      ⟨1, 2, [DynamicThreadPool.CPc.loopTop], [DynamicThreadPool.TPc.start],
        [DynamicThreadPool.SubPc.done, DynamicThreadPool.SubPc.enqueued],
        [1, 2], false, 1, []⟩
      ⟨1, 2, [DynamicThreadPool.CPc.loopTop],
        [DynamicThreadPool.TPc.start, DynamicThreadPool.TPc.start],
        [DynamicThreadPool.SubPc.done, DynamicThreadPool.SubPc.done],
        [1, 2], false, 1, []⟩ :=
    DynamicThreadPool.DynStep.subGrowth _ 1 rfl
  have s5 : DynamicThreadPool.DynStep
      ⟨1, 2, [DynamicThreadPool.CPc.loopTop],
        [DynamicThreadPool.TPc.start, DynamicThreadPool.TPc.start],
        [DynamicThreadPool.SubPc.done, DynamicThreadPool.SubPc.done],
        [1, 2], false, 1, []⟩
      ⟨1, 2, [DynamicThreadPool.CPc.loopTop],
        [DynamicThreadPool.TPc.loopTop, DynamicThreadPool.TPc.start],
        [DynamicThreadPool.SubPc.done, DynamicThreadPool.SubPc.done],
        [1, 2], false, 2, []⟩ :=
    DynamicThreadPool.DynStep.tempInc _ 0 rfl
  have s6 : DynamicThreadPool.DynStep
      ⟨1, 2, [DynamicThreadPool.CPc.loopTop],
        [DynamicThreadPool.TPc.loopTop, DynamicThreadPool.TPc.start],
        [DynamicThreadPool.SubPc.done, DynamicThreadPool.SubPc.done],
        [1, 2], false, 2, []⟩
      DynamicThreadPool.dynOverMax :=
    DynamicThreadPool.DynStep.tempInc _ 1 rfl
  exact Relation.ReflTransGen.head s1 (Relation.ReflTransGen.head s2
    (Relation.ReflTransGen.head s3 (Relation.ReflTransGen.head s4
      (Relation.ReflTransGen.head s5 (Relation.ReflTransGen.head s6
        Relation.ReflTransGen.refl)))))

/-- C2 (amended): in every reachable state of a pool constructed with
(minWorkers, maxWorkers), `active_threads_` equals `minWorkers` plus the
number of temp workers between their `fetch_add` and `fetch_sub`; in
particular `minWorkers <= activeCount` holds at all times (even while
stopping). The claimed upper bound `activeCount <= maxWorkers` can be
violated (see the counterexample), and core-worker exits never decrement the
counter. -/
theorem active_count_lower_bound (core mx : Nat) (ts : List Nat)
    (s : DynamicThreadPool.DynState)
    (hreach : DynamicThreadPool.DynReach (DynamicThreadPool.dynInit core mx ts) s) :
    s.active = s.core_threads + s.temps.countP DynamicThreadPool.tempCounted ∧
    s.core_threads = core ∧ core ≤ s.active := by
  have key : s.active = s.core_threads +
      s.temps.countP DynamicThreadPool.tempCounted ∧ s.core_threads = core := by
    induction hreach with
    | refl => exact ⟨by simp [DynamicThreadPool.dynInit], rfl⟩
    | tail hr hstep ih =>
        exact ⟨DynamicThreadPool.dynCount_step hstep ih.1,
          (DynamicThreadPool.core_threads_step hstep).trans ih.2⟩
  refine ⟨key.1, key.2, ?_⟩
  have h1 := key.1
  have h2 := key.2
  omega

/-- C2 amended witness: the initial state of a (2, 4) pool. -/
theorem active_count_lower_bound_witness :
    (DynamicThreadPool.dynInit 2 4 []).active =
        (DynamicThreadPool.dynInit 2 4 []).core_threads +
          (DynamicThreadPool.dynInit 2 4 []).temps.countP
            DynamicThreadPool.tempCounted ∧
    (DynamicThreadPool.dynInit 2 4 []).core_threads = 2 ∧
    2 ≤ (DynamicThreadPool.dynInit 2 4 []).active :=
  active_count_lower_bound 2 4 [] _ Relation.ReflTransGen.refl

/-- C3 counterexample: in the `DynamicThreadPool` built as (1, 2), a task is
enqueued by `Submit` and then claimed by the core worker before the
submitter reaches the growth check at line 54; the check nevertheless starts
one overflow worker from a state whose queue is empty, refuting both "the
growth check is executed under the controller's lock immediately after the
enqueue" and "an overflow worker is started only when the queue is
backlogged". -/
theorem overflow_spawned_with_empty_queue :
    DynamicThreadPool.DynReach (DynamicThreadPool.dynInit 1 2 [1])
      DynamicThreadPool.dynGrowthPre ∧
    DynamicThreadPool.dynGrowthPre.tasks = [] ∧
    DynamicThreadPool.DynStep DynamicThreadPool.dynGrowthPre
      DynamicThreadPool.dynGrowthPost ∧
    DynamicThreadPool.dynGrowthPost.temps =
      DynamicThreadPool.dynGrowthPre.temps ++ [DynamicThreadPool.TPc.start] := by
  refine ⟨?_, rfl, DynamicThreadPool.DynStep.subGrowth _ 0 rfl, rfl⟩
  have s1 : DynamicThreadPool.DynStep (DynamicThreadPool.dynInit 1 2 [1])
      ⟨1, 2, [DynamicThreadPool.CPc.loopTop], [],
        [DynamicThreadPool.SubPc.enqueued], [1], false, 1, []⟩ :=
    DynamicThreadPool.DynStep.subEnqueue _ 0 1 rfl rfl
  have s2 : DynamicThreadPool.DynStep
      ⟨1, 2, [DynamicThreadPool.CPc.loopTop], [],
        [DynamicThreadPool.SubPc.enqueued], [1], false, 1, []⟩
      ⟨1, 2, [DynamicThreadPool.CPc.waiting], [],
        [DynamicThreadPool.SubPc.enqueued], [1], false, 1, []⟩ :=
    DynamicThreadPool.DynStep.coreLoopTopWait _ 0 rfl rfl
  have s3 : DynamicThreadPool.DynStep
      ⟨1, 2, [DynamicThreadPool.CPc.waiting], [],
        [DynamicThreadPool.SubPc.enqueued], [1], false, 1, []⟩
      DynamicThreadPool.dynGrowthPre :=
    DynamicThreadPool.DynStep.coreClaim _ 0 1 [] rfl rfl
  exact Relation.ReflTransGen.head s1 (Relation.ReflTransGen.head s2
    (Relation.ReflTransGen.head s3 Relation.ReflTransGen.refl))

/-- C3 (amended): the growth check of an in-flight `Submit` runs after the
lock has been released; it starts exactly one overflow worker whenever
`active_threads_ < max_threads_` at the moment of the check, and none
otherwise, independently of the queue length, of idle workers and of
previous signals (the step neither reads nor changes the queue). -/
theorem growth_check_spawns_iff_below_max (s : DynamicThreadPool.DynState)
    (k : Nat) (hw : s.subs[k]? = some DynamicThreadPool.SubPc.enqueued) :
    ∃ s', DynamicThreadPool.DynStep s s' ∧ s'.tasks = s.tasks ∧
      s'.active = s.active ∧ s'.cores = s.cores ∧
      (s.active < s.max_threads →
        s'.temps = s.temps ++ [DynamicThreadPool.TPc.start]) ∧
      (¬ s.active < s.max_threads → s'.temps = s.temps) := by
  refine ⟨_, DynamicThreadPool.DynStep.subGrowth s k hw, rfl, rfl, rfl, ?_, ?_⟩
  · intro h
    simp [h]
  · intro h
    simp [h]

/-- C3 amended witness: the growth check pending in `dynGrowthPre` spawns a
temp worker (1 < 2) even though the queue is empty there. -/
theorem growth_check_spawns_iff_below_max_witness :
    ∃ s', DynamicThreadPool.DynStep DynamicThreadPool.dynGrowthPre s' ∧
      s'.temps = DynamicThreadPool.dynGrowthPre.temps ++
        [DynamicThreadPool.TPc.start] := by
  obtain ⟨s', hstep, -, -, -, hlt, -⟩ :=
    growth_check_spawns_iff_below_max DynamicThreadPool.dynGrowthPre 0 rfl
  exact ⟨s', hstep, hlt (by decide)⟩

/-- C8: a task body that raises an error never crashes the worker. First
conjunct: a worker executing a failing task can complete the execution,
returning to `Waiting` with the failure delivered through the task's result
channel (the `packaged_task` stores the raised error in the shared state).
Second and third conjuncts: in neither pool does any step take a worker that
is executing a task to the exited state, so the error never propagates out
of the worker loop. Fourth conjunct: a `DynamicThreadPool` core worker
executing a task can likewise complete it, returning to the top of its loop
with the task recorded as executed. -/
theorem task_failure_contained
    (s1 : SimpleThreadPool.SimState) (i tid : Nat) (e : TaskErr)
    (hw : s1.workers[i]? =
      some (SimpleThreadPool.SWpc.running tid (Except.error e)))
    (s2 s2' : SimpleThreadPool.SimState) (j tid2 : Nat) (b2 : Body)
    (hstep : SimpleThreadPool.SimStep s2 s2')
    (hrun : s2.workers[j]? = some (SimpleThreadPool.SWpc.running tid2 b2))
    (d d' : DynamicThreadPool.DynState) (k t : Nat)
    (hdstep : DynamicThreadPool.DynStep d d')
    (hdw : d.cores[k]? = some (DynamicThreadPool.CPc.running t)) :
    (∃ s', SimpleThreadPool.SimStep s1 s' ∧
        s'.workers[i]? = some SimpleThreadPool.SWpc.waiting ∧
        (tid, (Except.error e : Body)) ∈ s'.results) ∧
    s2'.workers[j]? ≠ some SimpleThreadPool.SWpc.exited ∧
    d'.cores[k]? ≠ some DynamicThreadPool.CPc.exited ∧
    (∃ d2, DynamicThreadPool.DynStep d d2 ∧
        d2.cores[k]? = some DynamicThreadPool.CPc.loopTop ∧ t ∈ d2.executed) := by
  obtain ⟨hlen1, -⟩ := List.getElem?_eq_some.mp hw
  obtain ⟨hlenD, -⟩ := List.getElem?_eq_some.mp hdw
  refine ⟨?_, ?_, ?_, ?_⟩
  · refine ⟨_, SimpleThreadPool.SimStep.finish s1 i tid (Except.error e) hw, ?_, ?_⟩
    · show (s1.workers.set i SimpleThreadPool.SWpc.waiting)[i]? = _
      simp [List.getElem?_set, hlen1]
    · simp
  · cases hstep with
    | submit t' h => simp [hrun]
    | claim jj t' rest hwjj hq =>
        show (s2.workers.set jj (SimpleThreadPool.SWpc.running t'.1 t'.2))[j]? ≠ _
        rw [List.getElem?_set]
        by_cases hjj : jj = j
        · rw [if_pos hjj]
          split <;> simp
        · rw [if_neg hjj]
          simp [hrun]
    | finish jj tt bb hwjj =>
        show (s2.workers.set jj SimpleThreadPool.SWpc.waiting)[j]? ≠ _
        rw [List.getElem?_set]
        by_cases hjj : jj = j
        · rw [if_pos hjj]
          split <;> simp
        · rw [if_neg hjj]
          simp [hrun]
    | exitw jj hwjj hs hq =>
        show (s2.workers.set jj SimpleThreadPool.SWpc.exited)[j]? ≠ _
        by_cases hjj : jj = j
        · subst hjj
          rw [hrun] at hwjj
          exact absurd hwjj (by simp)
        · rw [List.getElem?_set, if_neg hjj]
          simp [hrun]
    | setStop => simp [hrun]
  · cases hdstep with
    | coreLoopTopExit jj hwjj hs =>
        show (d.cores.set jj DynamicThreadPool.CPc.exited)[k]? ≠ _
        by_cases hjj : jj = k
        · subst hjj
          rw [hdw] at hwjj
          exact absurd hwjj (by simp)
        · rw [List.getElem?_set, if_neg hjj]
          simp [hdw]
    | coreLoopTopWait jj hwjj hs =>
        show (d.cores.set jj DynamicThreadPool.CPc.waiting)[k]? ≠ _
        rw [List.getElem?_set]
        by_cases hjj : jj = k
        · rw [if_pos hjj]
          split <;> simp
        · rw [if_neg hjj]
          simp [hdw]
    | coreClaim jj tt rest hwjj hq =>
        show (d.cores.set jj (DynamicThreadPool.CPc.running tt))[k]? ≠ _
        rw [List.getElem?_set]
        by_cases hjj : jj = k
        · rw [if_pos hjj]
          split <;> simp
        · rw [if_neg hjj]
          simp [hdw]
    | coreWakeExit jj hwjj hs hq =>
        show (d.cores.set jj DynamicThreadPool.CPc.exited)[k]? ≠ _
        by_cases hjj : jj = k
        · subst hjj
          rw [hdw] at hwjj
          exact absurd hwjj (by simp)
        · rw [List.getElem?_set, if_neg hjj]
          simp [hdw]
    | coreFinish jj tt hwjj =>
        show (d.cores.set jj DynamicThreadPool.CPc.loopTop)[k]? ≠ _
        rw [List.getElem?_set]
        by_cases hjj : jj = k
        · rw [if_pos hjj]
          split <;> simp
        · rw [if_neg hjj]
          simp [hdw]
    | tempInc jjj hwj => simp [hdw]
    | tempLoopTopDec jjj hwj hs => simp [hdw]
    | tempLoopTopWait jjj hwj hs => simp [hdw]
    | tempTimeout jjj hwj hq hs => simp [hdw]
    | tempWakeDec jjj hwj hs hq => simp [hdw]
    | tempClaim jjj tt rest hwj hq => simp [hdw]
    | tempFinish jjj tt hwj => simp [hdw]
    | tempDec jjj hwj => simp [hdw]
    | subEnqueue kk tt hwk hs => simp [hdw]
    | subRejected kk tt hwk hs => simp [hdw]
    | subGrowth kk hwk => simp [hdw]
    | shutdownSet => simp [hdw]
  · refine ⟨_, DynamicThreadPool.DynStep.coreFinish d k t hdw, ?_, ?_⟩
    · show (d.cores.set k DynamicThreadPool.CPc.loopTop)[k]? = _
      simp [List.getElem?_set, hlenD]
    · simp

/-- C8 witness: a worker of each pool executing a concrete failing task. -/
theorem task_failure_contained_witness :
    (∃ s', SimpleThreadPool.SimStep SimpleThreadPool.simRunFail s' ∧
        s'.workers[0]? = some SimpleThreadPool.SWpc.waiting ∧
        ((3 : Nat), (Except.error (TaskErr.taskFailure 1) : Body)) ∈ s'.results) ∧
    (∃ d2, DynamicThreadPool.DynStep DynamicThreadPool.dynRunning d2 ∧
        d2.cores[0]? = some DynamicThreadPool.CPc.loopTop ∧
        (5 : Nat) ∈ d2.executed) := by
  have h := task_failure_contained SimpleThreadPool.simRunFail 0 3
      (TaskErr.taskFailure 1) rfl
      SimpleThreadPool.simRunFail _ 0 3 (Except.error (TaskErr.taskFailure 1))
      (SimpleThreadPool.SimStep.setStop _) rfl
      DynamicThreadPool.dynRunning _ 0 5
      (DynamicThreadPool.DynStep.shutdownSet _) rfl
  exact ⟨h.1, h.2.2.2⟩
